import Mathlib

/-!
Verification of the mask-generation core of the `product_image_enhancer`
repository (`src/mask_generator.py`, class `MaskGenerator`).

The pipeline, translated from the Python source:

1. decode the image and force it to RGBA (PIL `convert('RGBA')` fills a
   missing alpha channel with 255);
2. extract the alpha plane;
3. `initial_mask = np.where(alpha > 127, 0, 255)`;
4. bilinear upscale by the supersample factor 4 (`cv2.resize`,
   `INTER_LINEAR`) and re-threshold with the same rule;
5. `cv2.Canny` edge detection and a 3x3 all-ones dilation, whose results
   are never used by the returned mask;
6. bilinear downscale back to the source size and a final re-threshold.

Images are modelled as grids of natural-number pixel values indexed by
(row, column); 8-bit values stay in `[0, 255]` throughout the pipeline
because every stage ends in a threshold producing only 0 or 255.
`cv2.resize` with `INTER_LINEAR` is modelled as mathematical bilinear
interpolation over the rationals with half-pixel centre alignment,
clamped source indices and round-half-up quantisation, which agrees with
OpenCV wherever the claims evaluate it (constant regions are preserved
exactly by both).  `cv2.Canny` is an external library primitive whose
output is dead in this pipeline, so `create_mask` is parametric in it.
-/

namespace MaskGenerator

/-- A single-channel image: a grid of natural-number pixel values.  `px y x`
is the value at row `y`, column `x`; values at coordinates outside
`height × width` are irrelevant junk carried by the total function. -/
structure Grid where
  width : ℕ
  height : ℕ
  px : ℕ → ℕ → ℕ

/-- A decoded RGBA image (the result of PIL `convert('RGBA')`): four
channel planes sharing one size.  The mask pipeline reads only `width`,
`height` and the alpha plane `a`. -/
structure Img where
  width : ℕ
  height : ℕ
  r : ℕ → ℕ → ℕ
  g : ℕ → ℕ → ℕ
  b : ℕ → ℕ → ℕ
  a : ℕ → ℕ → ℕ

/-- A decodable source file before `convert('RGBA')`: either it already has
an alpha channel or it is RGB-only. -/
inductive SourceFile where
  | rgba : Img → SourceFile
  | rgb : (width height : ℕ) → (r g b : ℕ → ℕ → ℕ) → SourceFile

/-- PIL `Image.convert('RGBA')`: an RGB-only image gets an all-opaque
(255) alpha plane. -/
def SourceFile.convertRGBA : SourceFile → Img
  | .rgba img => img
  | .rgb w h r g b => ⟨w, h, r, g, b, fun _ _ => 255⟩

/-- Width of the decoded source image. -/
def SourceFile.width (f : SourceFile) : ℕ := f.convertRGBA.width

/-- Height of the decoded source image. -/
def SourceFile.height (f : SourceFile) : ℕ := f.convertRGBA.height

/-- Alpha plane of the decoded source image. -/
def SourceFile.alphaAt (f : SourceFile) : ℕ → ℕ → ℕ := f.convertRGBA.a

/-- `MaskGenerator.ALPHA_THRESHOLD`: threshold for binary mask creation. -/
def ALPHA_THRESHOLD : ℕ := 127

/-- `MaskGenerator.EDGE_LOW`: lower threshold for edge detection. -/
def EDGE_LOW : ℕ := 100

/-- `MaskGenerator.EDGE_HIGH`: upper threshold for edge detection. -/
def EDGE_HIGH : ℕ := 200

/-- `MaskGenerator.SUPERSAMPLE_FACTOR`: factor for high-resolution
processing. -/
def SUPERSAMPLE_FACTOR : ℕ := 4

/-- The binarization rule applied to one pixel:
`np.where(v > ALPHA_THRESHOLD, 0, 255)`. -/
def thresholdPix (v : ℕ) : ℕ := if ALPHA_THRESHOLD < v then 0 else 255

/-- The binarization rule applied to a whole grid. -/
def thresholdGrid (g : Grid) : Grid :=
  ⟨g.width, g.height, fun y x => thresholdPix (g.px y x)⟩

/-- Clamp an integer index into `[0, n-1]` (OpenCV resize reads replicated
border pixels, i.e. clamped source indices). -/
def clampIdx (n : ℕ) (i : ℤ) : ℕ := (min (max i 0) ((n : ℤ) - 1)).toNat

/-- Read a pixel at integer coordinates with clamped-to-border semantics,
as a rational for interpolation arithmetic. -/
def Grid.sample (g : Grid) (yi xi : ℤ) : ℚ :=
  (g.px (clampIdx g.height yi) (clampIdx g.width xi) : ℚ)

/-- Source coordinate of destination index `d` under OpenCV resize
alignment: `(d + 1/2) * srcN / dstN - 1/2`. -/
def srcCoord (srcN dstN d : ℕ) : ℚ :=
  ((d : ℚ) + 1 / 2) * (srcN : ℚ) / (dstN : ℚ) - 1 / 2

/-- Bilinear interpolation of grid `g` at destination pixel `(x, y)` of a
`W × H` target, before quantisation. -/
def resizePix (g : Grid) (W H x y : ℕ) : ℚ :=
  (1 - (srcCoord g.height H y - (⌊srcCoord g.height H y⌋ : ℚ))) *
    ((1 - (srcCoord g.width W x - (⌊srcCoord g.width W x⌋ : ℚ))) *
        g.sample ⌊srcCoord g.height H y⌋ ⌊srcCoord g.width W x⌋ +
      (srcCoord g.width W x - (⌊srcCoord g.width W x⌋ : ℚ)) *
        g.sample ⌊srcCoord g.height H y⌋ (⌊srcCoord g.width W x⌋ + 1)) +
  (srcCoord g.height H y - (⌊srcCoord g.height H y⌋ : ℚ)) *
    ((1 - (srcCoord g.width W x - (⌊srcCoord g.width W x⌋ : ℚ))) *
        g.sample (⌊srcCoord g.height H y⌋ + 1) ⌊srcCoord g.width W x⌋ +
      (srcCoord g.width W x - (⌊srcCoord g.width W x⌋ : ℚ)) *
        g.sample (⌊srcCoord g.height H y⌋ + 1) (⌊srcCoord g.width W x⌋ + 1))

/-- Round a rational to the nearest natural number, halves up (the
quantisation of interpolation results back to 8-bit values). -/
def roundHalf (q : ℚ) : ℕ := (⌊q + 1 / 2⌋).toNat

/-- Model of `cv2.resize(g, (W, H), interpolation=cv2.INTER_LINEAR)`. -/
def resizeLinear (g : Grid) (W H : ℕ) : Grid :=
  ⟨W, H, fun y x => roundHalf (resizePix g W H x y)⟩

/-- Pixel read at integer coordinates with out-of-range reads giving 0
(the neutral border value of `cv2.dilate`). -/
def atZero (g : Grid) (y x : ℤ) : ℕ :=
  if 0 ≤ y ∧ y < (g.height : ℤ) ∧ 0 ≤ x ∧ x < (g.width : ℤ) then
    g.px y.toNat x.toNat
  else 0

/-- Model of `cv2.dilate(g, np.ones((3,3)), iterations=1)`: each pixel
becomes the maximum over its 3x3 neighbourhood. -/
def dilate3 (g : Grid) : Grid :=
  ⟨g.width, g.height, fun y x =>
    max
      (max
        (max (atZero g ((y : ℤ) - 1) ((x : ℤ) - 1)) (atZero g ((y : ℤ) - 1) x))
        (max (atZero g ((y : ℤ) - 1) ((x : ℤ) + 1)) (atZero g y ((x : ℤ) - 1))))
      (max
        (max (atZero g y x) (atZero g y ((x : ℤ) + 1)))
        (max (atZero g ((y : ℤ) + 1) ((x : ℤ) - 1))
          (max (atZero g ((y : ℤ) + 1) x) (atZero g ((y : ℤ) + 1) ((x : ℤ) + 1)))))⟩

/-- `MaskGenerator.create_mask`, translated line by line from
`src/mask_generator.py`.  `decoded` is the result of `Image.open`:
`none` when the file cannot be decoded (PIL raises; the call fails with
no mask), `some file` otherwise.  `canny` is the external `cv2.Canny`
primitive (mask, low threshold, high threshold); the pipeline computes
`edges` and `edge_zone` exactly as the source does but never reads them
into the returned mask. -/
def create_mask (canny : Grid → ℕ → ℕ → Grid) (decoded : Option SourceFile) :
    Except String Grid :=
  match decoded with
  | none => Except.error "DecodeError"
  | some file =>
    let original := file.convertRGBA
    let width := original.width
    let height := original.height
    let alpha_array : Grid := ⟨width, height, original.a⟩
    let initial_mask := thresholdGrid alpha_array
    let super_size := (width * SUPERSAMPLE_FACTOR, height * SUPERSAMPLE_FACTOR)
    let mask_large := resizeLinear initial_mask super_size.1 super_size.2
    let mask_large := thresholdGrid mask_large
    let edges := canny mask_large EDGE_LOW EDGE_HIGH
    let edge_zone := dilate3 edges
    let final_high_res := mask_large
    let final_mask_array := resizeLinear final_high_res width height
    let final_mask_array := thresholdGrid final_mask_array
    Except.ok final_mask_array

/-- The same pipeline with the edge-detection and dilation steps removed. -/
def create_mask_no_edges (decoded : Option SourceFile) : Except String Grid :=
  match decoded with
  | none => Except.error "DecodeError"
  | some file =>
    let original := file.convertRGBA
    let width := original.width
    let height := original.height
    let alpha_array : Grid := ⟨width, height, original.a⟩
    let initial_mask := thresholdGrid alpha_array
    let super_size := (width * SUPERSAMPLE_FACTOR, height * SUPERSAMPLE_FACTOR)
    let mask_large := resizeLinear initial_mask super_size.1 super_size.2
    let mask_large := thresholdGrid mask_large
    let final_high_res := mask_large
    let final_mask_array := resizeLinear final_high_res width height
    let final_mask_array := thresholdGrid final_mask_array
    Except.ok final_mask_array

/-- Stage 3 of the pipeline as a standalone function: the initial binary
mask of a decoded image. -/
def initial_mask_of (img : Img) : Grid :=
  thresholdGrid ⟨img.width, img.height, img.a⟩

/-- Stage 4 of the pipeline as a standalone function: the re-thresholded
supersampled mask. -/
def mask_large_of (img : Img) : Grid :=
  thresholdGrid
    (resizeLinear (initial_mask_of img) (img.width * SUPERSAMPLE_FACTOR)
      (img.height * SUPERSAMPLE_FACTOR))

/-- Stages 6/7 of the pipeline as a standalone function: the returned
native-resolution mask. -/
def final_mask_of (img : Img) : Grid :=
  thresholdGrid (resizeLinear (mask_large_of img) img.width img.height)

theorem create_mask_some (canny : Grid → ℕ → ℕ → Grid) (file : SourceFile) :
    create_mask canny (some file) = Except.ok (final_mask_of file.convertRGBA) :=
  rfl

/-! Basic facts about the threshold rule. -/

theorem thresholdPix_eq_or (v : ℕ) : thresholdPix v = 0 ∨ thresholdPix v = 255 := by
  unfold thresholdPix
  split <;> simp

theorem thresholdPix_zero : thresholdPix 0 = 255 := rfl

theorem thresholdPix_255 : thresholdPix 255 = 0 := rfl

theorem thresholdPix_swap (v : ℕ) (hv : v = 0 ∨ v = 255) :
    thresholdPix v = 255 - v := by
  rcases hv with h | h <;> subst h <;> rfl

theorem thresholdPix_invol (v : ℕ) (hv : v = 0 ∨ v = 255) :
    thresholdPix (thresholdPix v) = v := by
  rcases hv with h | h <;> subst h <;> rfl

/-! Facts about the bilinear resize model. -/

theorem clampIdx_lt (n : ℕ) (hn : 0 < n) (i : ℤ) : clampIdx n i < n := by
  unfold clampIdx
  omega

theorem roundHalf_cast (c : ℕ) : roundHalf (c : ℚ) = c := by
  have h : ⌊(c : ℚ) + 1 / 2⌋ = (c : ℤ) := by
    rw [Int.floor_eq_iff]
    constructor
    · push_cast
      linarith
    · push_cast
      linarith
  unfold roundHalf
  rw [h]
  exact Int.toNat_natCast c

theorem sample_const (g : Grid) (c : ℕ) (hw : 0 < g.width) (hh : 0 < g.height)
    (hc : ∀ y < g.height, ∀ x < g.width, g.px y x = c) (yi xi : ℤ) :
    g.sample yi xi = (c : ℚ) := by
  unfold Grid.sample
  rw [hc _ (clampIdx_lt _ hh _) _ (clampIdx_lt _ hw _)]

theorem resizePix_const (g : Grid) (c : ℕ) (hw : 0 < g.width) (hh : 0 < g.height)
    (hc : ∀ y < g.height, ∀ x < g.width, g.px y x = c) (W H x y : ℕ) :
    resizePix g W H x y = (c : ℚ) := by
  unfold resizePix
  rw [sample_const g c hw hh hc, sample_const g c hw hh hc,
    sample_const g c hw hh hc, sample_const g c hw hh hc]
  ring

theorem resizeLinear_const (g : Grid) (c : ℕ) (hw : 0 < g.width) (hh : 0 < g.height)
    (hc : ∀ y < g.height, ∀ x < g.width, g.px y x = c) (W H y x : ℕ) :
    (resizeLinear g W H).px y x = c := by
  unfold resizeLinear
  simp only
  rw [resizePix_const g c hw hh hc, roundHalf_cast]

/-! Pipeline stages on a uniform-alpha input. -/

theorem initial_mask_uniform (img : Img) (c : ℕ)
    (ha : ∀ y < img.height, ∀ x < img.width, img.a y x = c) :
    ∀ y < img.height, ∀ x < img.width,
      (initial_mask_of img).px y x = thresholdPix c := by
  intro y hy x hx
  unfold initial_mask_of thresholdGrid
  simp only
  rw [ha y hy x hx]

theorem mask_large_uniform (img : Img) (c : ℕ)
    (hw : 0 < img.width) (hh : 0 < img.height)
    (ha : ∀ y < img.height, ∀ x < img.width, img.a y x = c) :
    ∀ y x, (mask_large_of img).px y x = thresholdPix (thresholdPix c) := by
  intro y x
  unfold mask_large_of thresholdGrid
  simp only
  rw [resizeLinear_const (initial_mask_of img) (thresholdPix c) hw hh
    (initial_mask_uniform img c ha)]

theorem final_mask_uniform (img : Img) (c : ℕ)
    (hw : 0 < img.width) (hh : 0 < img.height)
    (ha : ∀ y < img.height, ∀ x < img.width, img.a y x = c) :
    ∀ y x, (final_mask_of img).px y x = thresholdPix c := by
  intro y x
  unfold final_mask_of thresholdGrid
  simp only
  have hml : ∀ y < (mask_large_of img).height, ∀ x < (mask_large_of img).width,
      (mask_large_of img).px y x = thresholdPix (thresholdPix c) := by
    intro y _ x _
    exact mask_large_uniform img c hw hh ha y x
  have hmlw : 0 < (mask_large_of img).width := by
    unfold mask_large_of thresholdGrid resizeLinear
    simp only
    unfold SUPERSAMPLE_FACTOR
    omega
  have hmlh : 0 < (mask_large_of img).height := by
    unfold mask_large_of thresholdGrid resizeLinear
    simp only
    unfold SUPERSAMPLE_FACTOR
    omega
  rw [resizeLinear_const (mask_large_of img) (thresholdPix (thresholdPix c))
    hmlw hmlh hml]
  exact thresholdPix_invol _ (thresholdPix_eq_or c)

/-! Congruence: every stage reads only in-range pixels of its input, so the
pipeline depends only on a grid's dimensions and in-range values. -/

theorem sample_congr (g1 g2 : Grid) (hw : g1.width = g2.width)
    (hh : g1.height = g2.height) (hw0 : 0 < g1.width) (hh0 : 0 < g1.height)
    (hpx : ∀ y < g1.height, ∀ x < g1.width, g1.px y x = g2.px y x)
    (yi xi : ℤ) : g1.sample yi xi = g2.sample yi xi := by
  unfold Grid.sample
  rw [← hw, ← hh]
  rw [hpx _ (clampIdx_lt _ hh0 _) _ (clampIdx_lt _ hw0 _)]

theorem resizePix_congr (g1 g2 : Grid) (hw : g1.width = g2.width)
    (hh : g1.height = g2.height) (hw0 : 0 < g1.width) (hh0 : 0 < g1.height)
    (hpx : ∀ y < g1.height, ∀ x < g1.width, g1.px y x = g2.px y x)
    (W H x y : ℕ) : resizePix g1 W H x y = resizePix g2 W H x y := by
  unfold resizePix
  rw [← hw, ← hh]
  simp only [sample_congr g1 g2 hw hh hw0 hh0 hpx]

theorem resizeLinear_congr (g1 g2 : Grid) (hw : g1.width = g2.width)
    (hh : g1.height = g2.height) (hw0 : 0 < g1.width) (hh0 : 0 < g1.height)
    (hpx : ∀ y < g1.height, ∀ x < g1.width, g1.px y x = g2.px y x)
    (W H : ℕ) : resizeLinear g1 W H = resizeLinear g2 W H := by
  simp only [resizeLinear, Grid.mk.injEq, true_and]
  funext y x
  rw [resizePix_congr g1 g2 hw hh hw0 hh0 hpx]

theorem final_mask_of_congr (i1 i2 : Img) (hw : i1.width = i2.width)
    (hh : i1.height = i2.height) (hw0 : 0 < i1.width) (hh0 : 0 < i1.height)
    (ha : ∀ y < i1.height, ∀ x < i1.width, i1.a y x = i2.a y x) :
    final_mask_of i1 = final_mask_of i2 := by
  have hpx : ∀ y < (initial_mask_of i1).height, ∀ x < (initial_mask_of i1).width,
      (initial_mask_of i1).px y x = (initial_mask_of i2).px y x := by
    intro y hy x hx
    simp only [initial_mask_of, thresholdGrid]
    rw [ha y hy x hx]
  have hml : mask_large_of i1 = mask_large_of i2 := by
    unfold mask_large_of
    rw [← hw, ← hh,
      resizeLinear_congr (initial_mask_of i1) (initial_mask_of i2) hw hh hw0 hh0 hpx]
  unfold final_mask_of
  rw [← hw, ← hh, hml]

theorem create_mask_alpha_only (canny1 canny2 : Grid → ℕ → ℕ → Grid)
    (f1 f2 : SourceFile) (hw : f1.width = f2.width) (hh : f1.height = f2.height)
    (hw0 : 0 < f1.width) (hh0 : 0 < f1.height)
    (ha : ∀ y < f1.height, ∀ x < f1.width, f1.alphaAt y x = f2.alphaAt y x) :
    create_mask canny1 (some f1) = create_mask canny2 (some f2) := by
  rw [create_mask_some, create_mask_some,
    final_mask_of_congr f1.convertRGBA f2.convertRGBA hw hh hw0 hh0 ha]

/-! Concrete fixtures used to instantiate the theorems below. -/

/-- A stand-in for the external `cv2.Canny` primitive when instantiating
theorems that hold for every edge detector. -/
def cannyId : Grid → ℕ → ℕ → Grid := fun g _ _ => g

/-- A second stand-in edge detector, returning an all-zero grid. -/
def cannyZero : Grid → ℕ → ℕ → Grid :=
  fun g _ _ => ⟨g.width, g.height, fun _ _ => 0⟩

/-- A 1x1 RGBA image with a mostly-opaque pixel (alpha 200). -/
def imgA : Img := ⟨1, 1, fun _ _ => 10, fun _ _ => 20, fun _ _ => 30, fun _ _ => 200⟩

/-- The same alpha plane as `imgA` but entirely different colour planes. -/
def imgB : Img := ⟨1, 1, fun _ _ => 99, fun _ _ => 98, fun _ _ => 97, fun _ _ => 200⟩

/-- A 2x2 RGBA image that is fully opaque (alpha 255 everywhere). -/
def imgOpaque : Img :=
  ⟨2, 2, fun _ _ => 1, fun _ _ => 2, fun _ _ => 3, fun _ _ => 255⟩

/-- A 2x2 RGBA image that is fully transparent (alpha 0 everywhere). -/
def imgClear : Img :=
  ⟨2, 2, fun _ _ => 1, fun _ _ => 2, fun _ _ => 3, fun _ _ => 0⟩

/-- A 1x1 RGBA image with alpha exactly 127 everywhere. -/
def img127 : Img := ⟨1, 1, fun _ _ => 7, fun _ _ => 8, fun _ _ => 9, fun _ _ => 127⟩

/-- A 1x1 RGBA image with alpha exactly 128 everywhere. -/
def img128 : Img := ⟨1, 1, fun _ _ => 7, fun _ _ => 8, fun _ _ => 9, fun _ _ => 128⟩

/-- C1: for every decodable input image, every pixel of the mask returned
by `create_mask` is exactly 0 or 255, never any intermediate value. -/
theorem mask_binary_invariant (canny : Grid → ℕ → ℕ → Grid) (file : SourceFile)
    (m : Grid) (hm : create_mask canny (some file) = Except.ok m) :
    ∀ y x, m.px y x = 0 ∨ m.px y x = 255 := by
  rw [create_mask_some] at hm
  injection hm with h
  subst h
  intro y x
  exact thresholdPix_eq_or _

/-- C1 witness: the binary invariant evaluated at a concrete image. -/
theorem mask_binary_invariant_check :
    (final_mask_of (SourceFile.rgba imgA).convertRGBA).px 0 0 = 0 ∨
      (final_mask_of (SourceFile.rgba imgA).convertRGBA).px 0 0 = 255 :=
  mask_binary_invariant cannyId (SourceFile.rgba imgA)
    (final_mask_of (SourceFile.rgba imgA).convertRGBA)
    (create_mask_some cannyId (SourceFile.rgba imgA)) 0 0

/-- C2: the mask returned by `create_mask` has exactly the width and height
of the decoded source image. -/
theorem mask_dimension_invariant (canny : Grid → ℕ → ℕ → Grid)
    (file : SourceFile) (m : Grid)
    (hm : create_mask canny (some file) = Except.ok m) :
    m.width = file.width ∧ m.height = file.height := by
  rw [create_mask_some] at hm
  injection hm with h
  subst h
  exact ⟨rfl, rfl⟩

/-- C2 witness: the dimension invariant evaluated at a concrete image. -/
theorem mask_dimension_invariant_check :
    (final_mask_of (SourceFile.rgba imgOpaque).convertRGBA).width =
        (SourceFile.rgba imgOpaque).width ∧
      (final_mask_of (SourceFile.rgba imgOpaque).convertRGBA).height =
        (SourceFile.rgba imgOpaque).height :=
  mask_dimension_invariant cannyId (SourceFile.rgba imgOpaque)
    (final_mask_of (SourceFile.rgba imgOpaque).convertRGBA)
    (create_mask_some cannyId (SourceFile.rgba imgOpaque))

/-- C3: the edge-detection and dilation steps have no effect on the
returned mask: for every edge detector and every input, the pipeline with
those steps removed returns the identical result. -/
theorem edge_steps_no_effect (canny : Grid → ℕ → ℕ → Grid)
    (decoded : Option SourceFile) :
    create_mask canny decoded = create_mask_no_edges decoded := by
  cases decoded <;> rfl

/-- C9: an undecodable source fails the single call with a decode error and
no mask, while every decodable input produces a mask and never takes the
error branch. -/
theorem decode_failure_semantics :
    (∀ canny : Grid → ℕ → ℕ → Grid,
        create_mask canny none = Except.error "DecodeError") ∧
      ∀ (canny : Grid → ℕ → ℕ → Grid) (file : SourceFile),
        ∃ m : Grid, create_mask canny (some file) = Except.ok m :=
  ⟨fun _ => rfl, fun canny file =>
    ⟨final_mask_of file.convertRGBA, create_mask_some canny file⟩⟩

/-- C10: `create_mask` is a pure function of the decoded image's width,
height and alpha plane: two decodable inputs agreeing on those (whatever
their colour planes, and whatever the edge detector does) produce
identical results. -/
theorem alpha_only_determinism (canny1 canny2 : Grid → ℕ → ℕ → Grid)
    (f1 f2 : SourceFile) (hw : f1.width = f2.width)
    (hh : f1.height = f2.height) (hw0 : 0 < f1.width) (hh0 : 0 < f1.height)
    (ha : ∀ y < f1.height, ∀ x < f1.width, f1.alphaAt y x = f2.alphaAt y x) :
    create_mask canny1 (some f1) = create_mask canny2 (some f2) :=
  create_mask_alpha_only canny1 canny2 f1 f2 hw hh hw0 hh0 ha

/-- C10 witness: two concrete images with the same size and alpha plane but
different colours yield the identical mask. -/
theorem alpha_only_determinism_check :
    create_mask cannyId (some (SourceFile.rgba imgA)) =
      create_mask cannyZero (some (SourceFile.rgba imgB)) :=
  alpha_only_determinism cannyId cannyZero (SourceFile.rgba imgA)
    (SourceFile.rgba imgB) rfl rfl (by decide) (by decide)
    (by intro y _ x _; rfl)

/-- C4: an input whose alpha is 255 everywhere — in particular an RGB-only
input, which `convert('RGBA')` makes fully opaque — yields a mask that is
entirely 0 (all-foreground). -/
theorem all_opaque_mask_zero :
    (∀ (canny : Grid → ℕ → ℕ → Grid) (img : Img) (m : Grid),
        0 < img.width → 0 < img.height →
        (∀ y < img.height, ∀ x < img.width, img.a y x = 255) →
        create_mask canny (some (SourceFile.rgba img)) = Except.ok m →
        ∀ y < img.height, ∀ x < img.width, m.px y x = 0) ∧
      ∀ (canny : Grid → ℕ → ℕ → Grid) (w h : ℕ) (r g b : ℕ → ℕ → ℕ) (m : Grid),
        0 < w → 0 < h →
        create_mask canny (some (SourceFile.rgb w h r g b)) = Except.ok m →
        ∀ y < h, ∀ x < w, m.px y x = 0 := by
  constructor
  · intro canny img m hw hh ha hm y hy x hx
    rw [create_mask_some] at hm
    injection hm with heq
    subst heq
    rw [final_mask_uniform (SourceFile.rgba img).convertRGBA 255 hw hh ha y x]
    decide
  · intro canny w h r g b m hw hh hm y hy x hx
    rw [create_mask_some] at hm
    injection hm with heq
    subst heq
    rw [final_mask_uniform (SourceFile.rgb w h r g b).convertRGBA 255 hw hh
      (fun _ _ _ _ => rfl) y x]
    decide

/-- C4 witness: a concrete opaque RGBA image and a concrete RGB-only image
both yield mask value 0. -/
theorem all_opaque_mask_zero_check :
    (final_mask_of (SourceFile.rgba imgOpaque).convertRGBA).px 0 0 = 0 ∧
      (final_mask_of
          (SourceFile.rgb 2 2 (fun _ _ => 1) (fun _ _ => 2)
            (fun _ _ => 3)).convertRGBA).px 0 0 = 0 :=
  ⟨all_opaque_mask_zero.1 cannyId imgOpaque
      (final_mask_of (SourceFile.rgba imgOpaque).convertRGBA) (by decide)
      (by decide) (by decide) (create_mask_some cannyId (SourceFile.rgba imgOpaque))
      0 (by decide) 0 (by decide),
    all_opaque_mask_zero.2 cannyId 2 2 (fun _ _ => 1) (fun _ _ => 2) (fun _ _ => 3)
      (final_mask_of
        (SourceFile.rgb 2 2 (fun _ _ => 1) (fun _ _ => 2) (fun _ _ => 3)).convertRGBA)
      (by decide) (by decide)
      (create_mask_some cannyId
        (SourceFile.rgb 2 2 (fun _ _ => 1) (fun _ _ => 2) (fun _ _ => 3)))
      0 (by decide) 0 (by decide)⟩

/-- C5: an input whose alpha is 0 everywhere yields a mask that is
entirely 255 (all-background). -/
theorem all_transparent_mask_255 (canny : Grid → ℕ → ℕ → Grid) (img : Img)
    (m : Grid) (hw : 0 < img.width) (hh : 0 < img.height)
    (ha : ∀ y < img.height, ∀ x < img.width, img.a y x = 0)
    (hm : create_mask canny (some (SourceFile.rgba img)) = Except.ok m) :
    ∀ y < img.height, ∀ x < img.width, m.px y x = 255 := by
  intro y hy x hx
  rw [create_mask_some] at hm
  injection hm with heq
  subst heq
  rw [final_mask_uniform (SourceFile.rgba img).convertRGBA 0 hw hh ha y x]
  decide

/-- C5 witness: a concrete fully transparent image yields mask value 255. -/
theorem all_transparent_mask_255_check :
    (final_mask_of (SourceFile.rgba imgClear).convertRGBA).px 1 1 = 255 :=
  all_transparent_mask_255 cannyId imgClear
    (final_mask_of (SourceFile.rgba imgClear).convertRGBA) (by decide) (by decide)
    (by decide) (create_mask_some cannyId (SourceFile.rgba imgClear))
    1 (by decide) 1 (by decide)

/-- C6: the binarization rule uses a strict inequality against 127: alpha
exactly 127 maps to 255 and alpha 128 maps to 0, and through the whole
pipeline a uniform alpha-127 input returns an all-255 mask while a uniform
alpha-128 input returns an all-0 mask. -/
theorem threshold_boundary_strict :
    thresholdPix 127 = 255 ∧ thresholdPix 128 = 0 ∧
      (∀ (canny : Grid → ℕ → ℕ → Grid) (img : Img) (m : Grid),
        0 < img.width → 0 < img.height →
        (∀ y < img.height, ∀ x < img.width, img.a y x = 127) →
        create_mask canny (some (SourceFile.rgba img)) = Except.ok m →
        ∀ y < img.height, ∀ x < img.width, m.px y x = 255) ∧
      ∀ (canny : Grid → ℕ → ℕ → Grid) (img : Img) (m : Grid),
        0 < img.width → 0 < img.height →
        (∀ y < img.height, ∀ x < img.width, img.a y x = 128) →
        create_mask canny (some (SourceFile.rgba img)) = Except.ok m →
        ∀ y < img.height, ∀ x < img.width, m.px y x = 0 := by
  refine ⟨rfl, rfl, ?_, ?_⟩
  · intro canny img m hw hh ha hm y hy x hx
    rw [create_mask_some] at hm
    injection hm with heq
    subst heq
    rw [final_mask_uniform (SourceFile.rgba img).convertRGBA 127 hw hh ha y x]
    decide
  · intro canny img m hw hh ha hm y hy x hx
    rw [create_mask_some] at hm
    injection hm with heq
    subst heq
    rw [final_mask_uniform (SourceFile.rgba img).convertRGBA 128 hw hh ha y x]
    decide

/-- C6 witness: the boundary behaviour evaluated at concrete uniform
alpha-127 and alpha-128 images. -/
theorem threshold_boundary_strict_check :
    (final_mask_of (SourceFile.rgba img127).convertRGBA).px 0 0 = 255 ∧
      (final_mask_of (SourceFile.rgba img128).convertRGBA).px 0 0 = 0 :=
  ⟨threshold_boundary_strict.2.2.1 cannyId img127
      (final_mask_of (SourceFile.rgba img127).convertRGBA) (by decide) (by decide)
      (by decide) (create_mask_some cannyId (SourceFile.rgba img127))
      0 (by decide) 0 (by decide),
    threshold_boundary_strict.2.2.2 cannyId img128
      (final_mask_of (SourceFile.rgba img128).convertRGBA) (by decide) (by decide)
      (by decide) (create_mask_some cannyId (SourceFile.rgba img128))
      0 (by decide) 0 (by decide)⟩

/-- C7: applying the binarization rule twice in succession to a grid whose
values are all 0 or 255 yields the identical grid. -/
theorem rethreshold_idempotent (g : Grid)
    (hbin : ∀ y < g.height, ∀ x < g.width, g.px y x = 0 ∨ g.px y x = 255) :
    (thresholdGrid (thresholdGrid g)).width = g.width ∧
      (thresholdGrid (thresholdGrid g)).height = g.height ∧
      ∀ y < g.height, ∀ x < g.width,
        (thresholdGrid (thresholdGrid g)).px y x = g.px y x := by
  refine ⟨rfl, rfl, ?_⟩
  intro y hy x hx
  simp only [thresholdGrid]
  exact thresholdPix_invol _ (hbin y hy x hx)

/-- A concrete binary 1x2 grid for instantiating the re-threshold
idempotence theorem. -/
def gridBin : Grid := ⟨2, 1, fun _ x => if x = 0 then 0 else 255⟩

/-- C7 witness: double binarization evaluated on a concrete binary grid. -/
theorem rethreshold_idempotent_check :
    (thresholdGrid (thresholdGrid gridBin)).width = gridBin.width ∧
      (thresholdGrid (thresholdGrid gridBin)).height = gridBin.height ∧
      (thresholdGrid (thresholdGrid gridBin)).px 0 1 = gridBin.px 0 1 :=
  ⟨(rethreshold_idempotent gridBin (by decide)).1,
    (rethreshold_idempotent gridBin (by decide)).2.1,
    (rethreshold_idempotent gridBin (by decide)).2.2 0 (by decide) 1 (by decide)⟩

/-- C8: one application of the binarization rule swaps 0 and 255 on binary
values; inside `create_mask` (whose result is the `final_mask_of` stage of
the decoded image) the supersampled mask of a uniform input carries the
inverted polarity `255 - thresholdPix c`, and the final downsample
re-threshold inverts it back, so the returned mask agrees with the initial
mask's documented 0 = product / 255 = background polarity. -/
theorem polarity_double_inversion :
    (∀ v : ℕ, v = 0 ∨ v = 255 → thresholdPix v = 255 - v) ∧
      (∀ (canny : Grid → ℕ → ℕ → Grid) (file : SourceFile),
        create_mask canny (some file) =
          Except.ok (final_mask_of file.convertRGBA)) ∧
      ∀ (img : Img) (c : ℕ), 0 < img.width → 0 < img.height →
        (∀ y < img.height, ∀ x < img.width, img.a y x = c) →
        (∀ y x, (mask_large_of img).px y x = 255 - thresholdPix c) ∧
          ∀ y < img.height, ∀ x < img.width,
            (final_mask_of img).px y x = (initial_mask_of img).px y x := by
  refine ⟨fun v hv => thresholdPix_swap v hv,
    fun canny file => create_mask_some canny file, ?_⟩
  intro img c hw hh ha
  constructor
  · intro y x
    rw [mask_large_uniform img c hw hh ha y x,
      thresholdPix_swap _ (thresholdPix_eq_or c)]
  · intro y hy x hx
    rw [final_mask_uniform img c hw hh ha y x,
      initial_mask_uniform img c ha y hy x hx]

/-- C8 witness: the swap rule at 0 and the double inversion evaluated at a
concrete uniform alpha-127 image. -/
theorem polarity_double_inversion_check :
    thresholdPix 0 = 255 - 0 ∧
      create_mask cannyId (some (SourceFile.rgba img127)) =
        Except.ok (final_mask_of (SourceFile.rgba img127).convertRGBA) ∧
      (mask_large_of img127).px 0 0 = 255 - thresholdPix 127 ∧
      (final_mask_of img127).px 0 0 = (initial_mask_of img127).px 0 0 :=
  ⟨polarity_double_inversion.1 0 (Or.inl rfl),
    polarity_double_inversion.2.1 cannyId (SourceFile.rgba img127),
    (polarity_double_inversion.2.2 img127 127 (by decide) (by decide)
        (by decide)).1 0 0,
    (polarity_double_inversion.2.2 img127 127 (by decide) (by decide)
        (by decide)).2 0 (by decide) 0 (by decide)⟩

end MaskGenerator
